import Mathlib

/-!
Verification of the `dataops-pipeline-tools` repository.

This file gives a shallow embedding of the two modules the claims are
about, and settles each claim as a theorem:

* `dataops_pipeline_tools/bq_dml.py` — the `BigQueryDML` class: the
  column-list builder (`parse_insert_columns`), the value-tuple builder
  (`parse_insert_values`), the full INSERT builder
  (`parse_insert_query_data`), the UPDATE builder
  (`parse_update_query_data`), the statement dispatcher
  (`generate_sql_query`), and the upsert orchestrator
  (`insert_or_update` with `run_bq_query`, `insert_record`,
  `update_record`).
* `dataops-pipeline-tools/tools/bq_data_operations.py` — the field-name
  sanitizer `str_to_gbq_field_name` and the empty-value pruning pass
  `drop_empty_iters`.

Python dynamic values are embedded as the inductive type `Value`;
Python strings are embedded as Lean `String` (characters treated as
ASCII: on the ASCII range Python's `str.isalnum`, `str.strip` and the
regex class `\d` coincide with the embeddings used here).  Python
functions that can raise are embedded with `Option`/`Except`.
-/

namespace Dataops

/-- Model of a Python `datetime.datetime` value (microseconds omitted:
the embedded code only ever formats whole seconds, and `strftime` of a
real datetime never produces an empty string). -/
structure PyDateTime where
  year : Nat
  month : Nat
  day : Nat
  hour : Nat
  minute : Nat
  second : Nat
deriving DecidableEq

/-- Python values as they flow through the builders: strings, ints,
bools (a Python `bool` is an `int`, so it takes the `isinstance(_, int)`
branches), datetimes, lists, dicts (ordered association lists, as
Python dicts preserve insertion order), `None`, and `vother` — a
catch-all for any other Python object, carrying its `str()` rendering
and its truthiness (e.g. a float `2.5` is `vother "2.5" true`, a float
`0.0` is `vother "0.0" false`). -/
inductive Value where
  | vstr (s : String)
  | vint (i : Int)
  | vbool (b : Bool)
  | vdatetime (d : PyDateTime)
  | vlist (xs : List Value)
  | vdict (fields : List (String × Value))
  | vnone
  | vother (text : String) (truthy : Bool)

/-- A Python record: an ordered mapping from column names to values. -/
abbrev Record := List (String × Value)

/-- Python `str(i)` for an int. -/
def pyIntStr (i : Int) : String :=
  if i < 0 then "-" ++ Nat.repr (-i).toNat else Nat.repr i.toNat

/-- Python `str(b)` for a bool. -/
def pyBoolStr (b : Bool) : String :=
  if b then "True" else "False"

/-- Left-pad a numeral with zeros to width `w` (CPython `strftime`
zero-pads `%Y` to 4 and `%m`/`%d`/`%H`/`%M`/`%S` to 2). -/
def pad (w : Nat) (n : Nat) : String :=
  String.mk (List.replicate (w - (Nat.repr n).length) '0') ++ Nat.repr n

/-- Python `d.strftime("%Y-%m-%dT%H:%M:%SZ")`. -/
def strftimeTZ (d : PyDateTime) : String :=
  pad 4 d.year ++ "-" ++ pad 2 d.month ++ "-" ++ pad 2 d.day ++ "T" ++
    pad 2 d.hour ++ ":" ++ pad 2 d.minute ++ ":" ++ pad 2 d.second

/-- Python `str(d)` for a datetime with zero microseconds:
`YYYY-MM-DD HH:MM:SS`. -/
def pyDatetimeStr (d : PyDateTime) : String :=
  pad 4 d.year ++ "-" ++ pad 2 d.month ++ "-" ++ pad 2 d.day ++ " " ++
    pad 2 d.hour ++ ":" ++ pad 2 d.minute ++ ":" ++ pad 2 d.second

/-- Python `repr(d)` for a datetime: `datetime.datetime(y, mo, d, h, mi)`
with the seconds component shown only when nonzero. -/
def pyDatetimeRepr (d : PyDateTime) : String :=
  "datetime.datetime(" ++ Nat.repr d.year ++ ", " ++ Nat.repr d.month ++
    ", " ++ Nat.repr d.day ++ ", " ++ Nat.repr d.hour ++ ", " ++
    Nat.repr d.minute ++
    (if d.second ≠ 0 then ", " ++ Nat.repr d.second else "") ++ ")"

mutual

/-- Python `str(v)` / f-string interpolation of a value. -/
def pyStr : Value → String
  | .vstr s => s
  | .vint i => pyIntStr i
  | .vbool b => pyBoolStr b
  | .vdatetime d => pyDatetimeStr d
  | .vlist xs => "[" ++ pyReprJoin xs ++ "]"
  | .vdict fs => "\x7b" ++ pyReprDictJoin fs ++ "\x7d"
  | .vnone => "None"
  | .vother text _ => text

/-- Python `repr(v)` — used for elements when a container is
interpolated (strings get quotes; `vother` is approximated by its
text, which is adequate for the tame inputs the theorems quantify
over). -/
def pyRepr : Value → String
  | .vstr s => "\x27" ++ s ++ "\x27"
  | .vint i => pyIntStr i
  | .vbool b => pyBoolStr b
  | .vdatetime d => pyDatetimeRepr d
  | .vlist xs => "[" ++ pyReprJoin xs ++ "]"
  | .vdict fs => "\x7b" ++ pyReprDictJoin fs ++ "\x7d"
  | .vnone => "None"
  | .vother text _ => text

/-- Comma-join of element reprs inside a list literal. -/
def pyReprJoin : List Value → String
  | [] => ""
  | [x] => pyRepr x
  | x :: y :: xs => pyRepr x ++ ", " ++ pyReprJoin (y :: xs)

/-- Comma-join of `key: value` reprs inside a dict literal. -/
def pyReprDictJoin : List (String × Value) → String
  | [] => ""
  | [(k, v)] => "\x27" ++ k ++ "\x27: " ++ pyRepr v
  | (k, v) :: f :: fs =>
      "\x27" ++ k ++ "\x27: " ++ pyRepr v ++ ", " ++ pyReprDictJoin (f :: fs)

end

/-- Python `sub in s` substring test. -/
def pyIn (sub s : String) : Bool :=
  decide (sub.data <:+: s.data)

/-- Python `s.endswith(suffix)`. -/
def pyEndsWith (s suffix : String) : Bool :=
  decide (suffix.data <:+ s.data)

/-- Python `s[:-n]` for `n ≤ len(s)`. -/
def pyDropRight (s : String) (n : Nat) : String :=
  String.mk (s.data.take (s.data.length - n))

/-- Is a character stripped by `rstrip(", ")`? -/
def isCommaSpace (c : Char) : Bool :=
  c == ',' || c == ' '

/-- Python `s.rstrip(", ")`: remove every trailing character that is a
comma or a space. -/
def pyRstripCS (s : String) : String :=
  String.mk ((s.data.reverse.dropWhile isCommaSpace).reverse)

/-- `BigQueryDML.__check_timestamp`: `None`/empty (falsy) becomes the
literal `NULL`, anything else is wrapped in double quotes. -/
def check_timestamp (timestamp : String) : String :=
  if timestamp = "" then "NULL" else "\"" ++ timestamp ++ "\""

/-- Python truthiness of an `Option String` keyword argument (absent or
empty string is falsy). -/
def optTruthy : Option String → Bool
  | none => false
  | some t => !(t == "")

/-- The string held by an optional argument (used only under
`optTruthy`). -/
def optStr : Option String → String
  | none => ""
  | some t => t

/-- The `for key, _ in data.items()` accumulation loop of
`parse_insert_columns`. -/
def colFold (acc : String) : Record → String
  | [] => acc
  | (k, _) :: rest => colFold (acc ++ k ++ ", ") rest

/-- `BigQueryDML.parse_insert_columns`: keys joined with `", "` onto the
base string (default `"("`), and if the result ends with `", "` the
separator is replaced by `") "`. -/
def parse_insert_columns (data : Record) (baseString : String) : String :=
  let keyString := colFold baseString data
  if pyEndsWith keyString ", " then pyDropRight keyString 2 ++ ") "
  else keyString

mutual

/-- `BigQueryDML.parse_insert_values`: the value-tuple builder.  The
base string is the `base_string` keyword argument (default `""`). -/
def parse_insert_values (data : Record) (base : String) : String :=
  ivFold base data

/-- The `for _, value in data.items()` accumulation loop of
`parse_insert_values`. -/
def ivFold (values : String) : Record → String
  | [] => values
  | (_, v) :: rest => ivFold (values ++ insertChunk v) rest

/-- The text appended to the accumulator for one value, following the
`isinstance` chain: `str`, `datetime`, `int` (which `bool` also
satisfies), `list`, `dict`, else `NULL`. -/
def insertChunk : Value → String
  | .vstr s => (if pyIn "https://" s then "\"" ++ s ++ "\"" else s) ++ ", "
  | .vdatetime d => check_timestamp (strftimeTZ d ++ "Z") ++ ", "
  | .vint i => pyIntStr i ++ ", "
  | .vbool b => pyBoolStr b ++ ", "
  | .vlist xs =>
      let child := ivListFold "[" xs
      (if pyEndsWith child ", " then pyDropRight child 2 else child) ++ "], "
  | .vdict fs =>
      let child := parse_insert_values fs ""
      let child := if pyEndsWith child ", " then pyDropRight child 2 else child
      "(" ++ child ++ "), "
  | .vnone => "NULL, "
  | .vother _ _ => "NULL, "

/-- The text appended for one item of a list value: a dict item
recurses (with `rstrip(", ")` applied and parenthesized), any other
item is interpolated verbatim; both end with the `", "` separator. -/
def ivItemPiece : Value → String
  | .vdict fs => "(" ++ pyRstripCS (parse_insert_values fs "") ++ "), "
  | item => pyStr item ++ ", "

/-- The inner `for item in value` loop of the list branch. -/
def ivListFold (child : String) : List Value → String
  | [] => child
  | item :: rest => ivListFold (child ++ ivItemPiece item) rest

end

/-- `BigQueryDML.parse_insert_query_data`: the full INSERT statement. -/
def parse_insert_query_data (tableRef : String) (data : Record) : String :=
  let firstHalf := "INSERT `" ++ tableRef ++ "` ("
  let secondHalf := "VALUES("
  let keys := parse_insert_columns data firstHalf
  let values := parse_insert_values data secondHalf
  let values :=
    if pyEndsWith values ", " then pyDropRight values 2 else values
  keys ++ values ++ ")"

mutual

/-- `BigQueryDML.parse_update_query_data`: the UPDATE builder.
`parentKey` and `currentQuery` are the `parent_key` / `current_query`
keyword arguments (default `None`), tested for Python truthiness. -/
def parse_update_query_data (tableRef : String) (data : Record)
    (parentKey : Option String) (currentQuery : Option String) : String :=
  let query := "UPDATE " ++ tableRef ++ " SET "
  let query := if optTruthy currentQuery then optStr currentQuery else query
  updFold tableRef parentKey query data

/-- The `for key, value in data.items()` loop of the UPDATE builder.
Branch order as in the source: `str`, `int` (which `bool` also
satisfies), `datetime`, `list`, `dict`, and finally `elif not value`
(so a *truthy* value of unsupported type appends nothing).  In the list
branch the source line `child.rstrip(", ")` discards its result, so no
stripping happens there; the `", ".join` plus the final `rstrip(", ")`
is modelled verbatim. -/
def updFold (tableRef : String) (parentKey : Option String)
    (query : String) : Record → String
  | [] => query
  | (k0, v) :: rest =>
      let key := if optTruthy parentKey then optStr parentKey ++ "." ++ k0
                 else k0
      let query :=
        match v with
        | .vstr s =>
            query ++ key ++ " = " ++
              (if pyIn "https://" s then "\"" ++ s ++ "\"" else s) ++ ", "
        | .vint i => query ++ key ++ " = " ++ pyIntStr i ++ ", "
        | .vbool b => query ++ key ++ " = " ++ pyBoolStr b ++ ", "
        | .vdatetime d =>
            query ++ key ++ " = TIMESTAMP(" ++
              check_timestamp (strftimeTZ d ++ "Z") ++ "), "
        | .vlist xs =>
            query ++ key ++ " = [" ++
              pyRstripCS (String.intercalate ", " (updItems tableRef xs)) ++
              "], "
        | .vdict fs =>
            parse_update_query_data tableRef fs (some key) (some query)
        | .vnone => query ++ key ++ " = NULL, "
        | .vother _ truthy =>
            if truthy then query else query ++ key ++ " = NULL, "
      updFold tableRef parentKey query rest

/-- The `for item in value` loop of the UPDATE list branch, producing
the list `string` that is then `", ".join`-ed. -/
def updItems (tableRef : String) : List Value → List String
  | [] => []
  | item :: rest =>
      (match item with
        | .vdict fs =>
            parse_update_query_data tableRef fs none (some "STRUCT(") ++ "), "
        | _ => pyStr item) :: updItems tableRef rest

end

/-- The error-like outcomes of the embedded Python code. -/
inductive PyErr where
  | valueError (msg : String)
  | attributeError
  | keyError
  | indexError
deriving DecidableEq

/-- `BigQueryDML.generate_sql_query`: the statement dispatcher.
Parameters mirror the keyword arguments `data` (default `None`),
`query_type` (default `"SELECT"`), the select-list and the
where-clause (default `None`); string options are tested for Python
truthiness.  Passing `data=None` to the INSERT/UPDATE branches is the
Python `AttributeError` from iterating `None`. -/
def generate_sql_query (tableRef : String) (data : Option Record)
    (queryType : String) (querySelect : Option String)
    (queryWhere : Option String) : Except PyErr String :=
  if queryType = "SELECT" then
    .ok
      (if optTruthy querySelect && !optTruthy queryWhere then
        "SELECT " ++ optStr querySelect ++ " FROM " ++ tableRef
      else if !optTruthy querySelect && optTruthy queryWhere then
        "SELECT * FROM " ++ tableRef ++ " " ++ optStr queryWhere
      else if optTruthy querySelect && optTruthy queryWhere then
        "SELECT " ++ optStr querySelect ++ " FROM " ++ tableRef ++ " " ++
          optStr queryWhere
      else "SELECT * FROM " ++ tableRef)
  else if queryType = "INSERT" then
    match data with
    | none => .error .attributeError
    | some d => .ok (parse_insert_query_data tableRef d)
  else if queryType = "UPDATE" then
    match data with
    | none => .error .attributeError
    | some d =>
        let query := parse_update_query_data tableRef d none none
        let query :=
          if pyEndsWith query ", " then pyDropRight query 2 else query
        .ok (if optTruthy queryWhere then query ++ " " ++ optStr queryWhere
             else query)
  else .error (.valueError "query_type not one of SELECT, INSERT, UPDATE")

/-- The narrow result interface of the query-execution collaborator:
what `insert_or_update` reads off a BigQuery `RowIterator`. -/
structure QueryResult where
  total_rows : Nat
deriving DecidableEq

/-- The query-execution collaborator: running an SQL string either
yields a result object or the `None` that `run_bq_query` substitutes
when the client raises `NotFound` (the `try`/`except` of the source is
folded into this interface: `none` is the caught-`NotFound` path). -/
abbrev Executor := String → Option QueryResult

/-- `BigQueryDML.run_bq_query`: returns the query result, or `None`
when the table is not found. -/
def run_bq_query (ex : Executor) (query : String) : Option QueryResult :=
  ex query

/-- Python `data[k]` on a dict (a missing key is a `KeyError`). -/
def pyGet (data : Record) (k : String) : Option Value :=
  (data.find? (fun kv => kv.1 == k)).map (fun kv => kv.2)

/-- `BigQueryDML.insert_record`: build the INSERT via the dispatcher and
run it (an error raised while building propagates). -/
def insert_record (ex : Executor) (tableRef : String) (data : Record) :
    Except PyErr (Option QueryResult) :=
  match generate_sql_query tableRef (some data) "INSERT" none none with
  | .error e => .error e
  | .ok insertQuery => .ok (run_bq_query ex insertQuery)

/-- `BigQueryDML.update_record`: build the UPDATE with
`WHERE id = <data['id']>` via the dispatcher and run it (an error
raised while building propagates). -/
def update_record (ex : Executor) (tableRef : String) (data : Record) :
    Except PyErr (Option QueryResult) :=
  match pyGet data "id" with
  | none => .error .keyError
  | some idv =>
      match generate_sql_query tableRef (some data) "UPDATE" none
          (some ("WHERE id = " ++ pyStr idv)) with
      | .error e => .error e
      | .ok updateQuery => .ok (run_bq_query ex updateQuery)

/-- `BigQueryDML.insert_or_update`: SELECT with `WHERE id = <id>`;
branch on `total_rows` of the result.  Reading `total_rows` off the
`None` that `run_bq_query` returns on `NotFound` is the Python
`AttributeError`. -/
def insert_or_update (ex : Executor) (tableRef : String) (data : Record) :
    Except PyErr String :=
  match pyGet data "id" with
  | none => .error .keyError
  | some idv =>
      match generate_sql_query tableRef none "SELECT" none
          (some ("WHERE id = " ++ pyStr idv)) with
      | .error e => .error e
      | .ok searchQuery =>
          match run_bq_query ex searchQuery with
          | none => .error .attributeError
          | some checkForRows =>
              if checkForRows.total_rows = 0 then
                match insert_record ex tableRef data with
                | .error e => .error e
                | .ok ins =>
                    .ok (if ins.isSome then
                          "INSERT successful for ticket metric " ++ pyStr idv
                        else "INSERT failed for ticket metric " ++ pyStr idv)
              else
                match update_record ex tableRef data with
                | .error e => .error e
                | .ok upd =>
                    .ok (if upd.isSome then
                          "UPDATE successful for ticket metric " ++ pyStr idv
                        else "UPDATE failed for ticket metric " ++ pyStr idv)

/-! ## `tools/bq_data_operations.py` -/

/-- The character set stripped by Python `str.strip()` (ASCII). -/
def pyIsSpace (c : Char) : Bool :=
  c == ' ' || c == '\t' || c == '\n' || c == '\r' || c == '\x0b' || c == '\x0c'

/-- Python `s.strip()`. -/
def pyStrip (s : String) : String :=
  String.mk (((s.data.dropWhile pyIsSpace).reverse.dropWhile pyIsSpace).reverse)

/-- `str_to_gbq_field_name`: strip whitespace, replace non-alphanumeric
characters with underscores, prefix an underscore when the first
character is a digit, keep the first 128 characters.  Indexing
`tmp_str[0]` on a string that stripped to empty is the Python
`IndexError`, modelled as `none`. -/
def str_to_gbq_field_name (inStr : String) : Option String :=
  let tmpStr := (pyStrip inStr).data.map (fun c => if c.isAlphanum then c else '_')
  match tmpStr with
  | [] => none
  | c :: _ =>
      let gbqStr := if c.isDigit then '_' :: tmpStr else tmpStr
      some (String.mk (gbqStr.take 128))

/-- Python truthiness of an embedded value. -/
def pyTruthy : Value → Bool
  | .vstr s => !(s == "")
  | .vint i => !(i == 0)
  | .vbool b => b
  | .vdatetime _ => true
  | .vlist xs => !xs.isEmpty
  | .vdict fs => !fs.isEmpty
  | .vnone => false
  | .vother _ truthy => truthy

/-- Python `v in ({}, [], None)`: equality against the empty dict, the
empty list and `None` (no other embedded value compares equal to any of
the three). -/
def isEmptyOrNone : Value → Bool
  | .vdict [] => true
  | .vlist [] => true
  | .vnone => true
  | _ => false

mutual

/-- `drop_empty_iters`: scalars pass through; list elements are cleaned
recursively and only truthy results kept; dict values are cleaned
recursively and entries whose cleaned value is `{}`, `[]` or `None` are
dropped. -/
def drop_empty_iters : Value → Value
  | .vlist xs => .vlist (deiList xs)
  | .vdict fs => .vdict (deiDict fs)
  | v => v

/-- The list comprehension
`[v for v in (drop_empty_iters(member) for member in obj) if v]`. -/
def deiList : List Value → List Value
  | [] => []
  | x :: xs =>
      let v := drop_empty_iters x
      if pyTruthy v then v :: deiList xs else deiList xs

/-- The dict comprehension keeping entries whose cleaned value is not
in `({}, [], None)`. -/
def deiDict : List (String × Value) → List (String × Value)
  | [] => []
  | (k, x) :: fs =>
      let v := drop_empty_iters x
      if isEmptyOrNone v then deiDict fs else (k, v) :: deiDict fs

end

/-! ## Measurement functions for counting top-level comma positions

These are not part of the embedding: they define the observable used by
the positional-alignment claim — the number of positions a fragment
splits into on commas that are outside any parentheses/brackets. -/

/-- Bracket-depth change contributed by one character. -/
def bracketStep (c : Char) : Int :=
  if c = '(' ∨ c = '[' then 1 else if c = ')' ∨ c = ']' then -1 else 0

/-- Net bracket-depth change of a character list. -/
def cdelta : List Char → Int
  | [] => 0
  | c :: cs => bracketStep c + cdelta cs

/-- Number of commas occurring at bracket depth zero, starting from
depth `d`. -/
def countFrom (d : Int) : List Char → Nat
  | [] => 0
  | c :: cs =>
      (if c = ',' ∧ d = 0 then 1 else 0) + countFrom (d + bracketStep c) cs

/-- Minimum running bracket-depth change over all prefixes. -/
def minPref : List Char → Int
  | [] => 0
  | c :: cs => min 0 (bracketStep c + minPref cs)

/-- Number of top-level comma-separated positions of a fragment: one
more than the number of depth-zero commas (split semantics). -/
def topPositions (s : String) : Nat :=
  countFrom 0 s.data + 1

/-- A character that is not a bracket. -/
def flatChar (c : Char) : Bool :=
  !(c == '(' || c == ')' || c == '[' || c == ']')

/-- A character that is neither a bracket nor a comma. -/
def charTame (c : Char) : Bool :=
  flatChar c && !(c == ',')

/-- All characters tame. -/
def tameChars (cs : List Char) : Bool :=
  cs.all charTame

mutual

/-- A value is tame when every string scalar and other-object text in
it, and every nested dict key, contains no comma and no bracket
character. -/
def tameVal : Value → Bool
  | .vstr s => tameChars s.data
  | .vother text _ => tameChars text.data
  | .vlist xs => tameList xs
  | .vdict fs => tameRec fs
  | _ => true

/-- Tameness of list elements. -/
def tameList : List Value → Bool
  | [] => true
  | x :: xs => tameVal x && tameList xs

/-- Tameness of a Record: keys and values. -/
def tameRec : Record → Bool
  | [] => true
  | (k, v) :: fs => tameChars k.data && tameVal v && tameRec fs

end

/-- Comma-space join of a list of keys (the shape of the column list
between its parentheses). -/
def joinComma : List String → String
  | [] => ""
  | [k] => k
  | k :: l :: rest => k ++ ", " ++ joinComma (l :: rest)

/-- The concatenation the column-list loop appends after the base
string. -/
def keysCat : Record → String
  | [] => ""
  | (k, _) :: rest => k ++ ", " ++ keysCat rest

/-- The concatenation the value-tuple loop appends after the base
string. -/
def valuesCat : Record → String
  | [] => ""
  | (_, v) :: rest => insertChunk v ++ valuesCat rest

/-- The concatenation built by the inner list loop of the value-tuple
builder. -/
def itemsCat : List Value → String
  | [] => ""
  | item :: rest => ivItemPiece item ++ itemsCat rest

/-- Scalar values treated identically by both builders (everything the
claim covers except datetimes, sequences and nested Records). -/
def isPlainScalar : Value → Bool
  | .vstr _ => true
  | .vint _ => true
  | .vbool _ => true
  | .vnone => true
  | _ => false

mutual

/-- The claim's invariant, read off the structure: in dicts no value is
`{}`, `[]` or `None`; in lists every element is truthy; recursively at
every depth. -/
def cleanVal : Value → Bool
  | .vlist xs => cleanList xs
  | .vdict fs => cleanDict fs
  | _ => true

/-- Invariant for list contents: every element truthy and clean. -/
def cleanList : List Value → Bool
  | [] => true
  | x :: xs => pyTruthy x && cleanVal x && cleanList xs

/-- Invariant for dict contents: no value equal to `{}`, `[]` or
`None`, and every value clean. -/
def cleanDict : List (String × Value) → Bool
  | [] => true
  | (_, v) :: fs => !(isEmptyOrNone v) && cleanVal v && cleanDict fs

end

/-- A fragment that is bracket-balanced and never dips below its
starting depth. -/
def StrBal (s : String) : Prop :=
  cdelta s.data = 0 ∧ 0 ≤ minPref s.data

/-- The concrete executor for the C6 witness: zero rows for the search
query, a row object for everything else. -/
def exC6 : Executor := fun q =>
  if q = "SELECT * FROM p.d.t WHERE id = 1" then some ⟨0⟩ else some ⟨1⟩

/-! ## General helper lemmas -/

theorem mk_data (s : String) : String.mk s.data = s := by
  cases s
  rfl

theorem pyEndsWith_append_sep (s : String) :
    pyEndsWith (s ++ ", ") ", " = true := by
  simp only [pyEndsWith, String.data_append, decide_eq_true_eq]
  exact ⟨s.data, rfl⟩

theorem pyDropRight_append_sep (s : String) :
    pyDropRight (s ++ ", ") 2 = s := by
  simp only [pyDropRight, String.data_append]
  have h2 : (s.data ++ [',', ' ']).length - 2 = s.data.length := by
    simp
  rw [h2, List.take_left]

theorem append_ne_empty_left (t s : String) (h : t ≠ "") : t ++ s ≠ "" := by
  intro hc
  apply h
  have hd := congrArg String.data hc
  rw [String.data_append] at hd
  rcases List.append_eq_nil.mp hd with ⟨h1, _⟩
  have := congrArg String.mk h1
  rwa [mk_data] at this

/-! ## Lemmas about the depth-counting measurements -/

theorem cdelta_append (a b : List Char) :
    cdelta (a ++ b) = cdelta a + cdelta b := by
  induction a with
  | nil => simp [cdelta]
  | cons c cs ih =>
      simp only [List.cons_append, List.append_eq, cdelta, ih]
      ring

theorem countFrom_append (d : Int) (a b : List Char) :
    countFrom d (a ++ b) = countFrom d a + countFrom (d + cdelta a) b := by
  induction a generalizing d with
  | nil => simp [countFrom, cdelta]
  | cons c cs ih =>
      simp only [List.cons_append, List.append_eq, countFrom, cdelta, ih,
        ← add_assoc]

theorem minPref_nonpos (cs : List Char) : minPref cs ≤ 0 := by
  cases cs with
  | nil => simp [minPref]
  | cons c cs => simp [minPref]

theorem minPref_append (a b : List Char) :
    minPref (a ++ b) = min (minPref a) (cdelta a + minPref b) := by
  induction a with
  | nil =>
      have := minPref_nonpos b
      simp only [List.nil_append, minPref, cdelta]
      omega
  | cons c cs ih =>
      simp only [List.cons_append, List.append_eq, minPref, cdelta, ih]
      omega

theorem countFrom_eq_zero (cs : List Char) :
    ∀ d : Int, 1 ≤ d + minPref cs → countFrom d cs = 0 := by
  induction cs with
  | nil => intro d _; rfl
  | cons c cs ih =>
      intro d h
      simp only [minPref] at h
      simp only [countFrom]
      have h1 : ¬(c = ',' ∧ d = 0) := by
        rintro ⟨_, rfl⟩
        omega
      rw [if_neg h1]
      have h2 : 1 ≤ (d + bracketStep c) + minPref cs := by omega
      rw [ih _ h2]

/-! ## Lemmas about the character classes -/

theorem bracketStep_flat (c : Char) (h : flatChar c = true) :
    bracketStep c = 0 := by
  simp only [flatChar, Bool.not_eq_true', Bool.or_eq_false_iff,
    beq_eq_false_iff_ne] at h
  obtain ⟨⟨⟨h1, h2⟩, h3⟩, h4⟩ := h
  unfold bracketStep
  rw [if_neg (by rintro (h | h) <;> contradiction),
    if_neg (by rintro (h | h) <;> contradiction)]

theorem charTame_flat (c : Char) (h : charTame c = true) :
    flatChar c = true := by
  simp only [charTame, Bool.and_eq_true] at h
  exact h.1

theorem charTame_ne_comma (c : Char) (h : charTame c = true) : c ≠ ',' := by
  simp only [charTame, Bool.and_eq_true, Bool.not_eq_true',
    beq_eq_false_iff_ne] at h
  exact h.2

theorem flat_chars_props (cs : List Char)
    (h : ∀ c ∈ cs, flatChar c = true) :
    cdelta cs = 0 ∧ minPref cs = 0 := by
  induction cs with
  | nil => exact ⟨rfl, rfl⟩
  | cons c cs ih =>
      have hc := bracketStep_flat c (h c (by simp))
      have ih' := ih (fun x hx => h x (by simp [hx]))
      constructor
      · simp [cdelta, hc, ih'.1]
      · simp [minPref, hc, ih'.2]

theorem tame_chars_mem (cs : List Char) (h : tameChars cs = true) :
    ∀ c ∈ cs, charTame c = true := by
  simpa [tameChars, List.all_eq_true] using h

theorem tame_chars_props (cs : List Char) (h : tameChars cs = true) :
    cdelta cs = 0 ∧ minPref cs = 0 ∧ ∀ d, countFrom d cs = 0 := by
  have hmem := tame_chars_mem cs h
  have hflat := flat_chars_props cs (fun c hc => charTame_flat c (hmem c hc))
  refine ⟨hflat.1, hflat.2, ?_⟩
  clear h
  induction cs with
  | nil => intro d; rfl
  | cons c cs ih =>
      intro d
      have hc : charTame c = true := hmem c (by simp)
      simp only [countFrom]
      rw [if_neg (by rintro ⟨hcm, _⟩; exact charTame_ne_comma c hc hcm)]
      have := ih (fun x hx => hmem x (by simp [hx]))
        (flat_chars_props cs
          (fun x hx => charTame_flat x (hmem x (by simp [hx]))))
      simp [this]

theorem tameChars_append (a b : List Char) :
    tameChars (a ++ b) = (tameChars a && tameChars b) := by
  simp [tameChars]

/-! ## Numerals and timestamps are tame -/

theorem digitChar_tame (m : Nat) : charTame (Nat.digitChar m) = true := by
  by_cases h : m < 16
  · interval_cases m <;> rfl
  · have he : Nat.digitChar m = '*' := by
      simp only [Nat.digitChar]
      repeat rw [if_neg (by omega)]
    rw [he]
    rfl

theorem toDigitsCore_tame (b : Nat) (fuel : Nat) :
    ∀ (n : Nat) (acc : List Char), tameChars acc = true →
      tameChars (Nat.toDigitsCore b fuel n acc) = true := by
  induction fuel with
  | zero =>
      intro n acc h
      simpa [Nat.toDigitsCore] using h
  | succ f ih =>
      intro n acc h
      rw [Nat.toDigitsCore]
      have hcons : tameChars (Nat.digitChar (n % b) :: acc) = true := by
        simp [tameChars, List.all_cons, digitChar_tame,
          tame_chars_mem acc h]
        exact fun c hc => tame_chars_mem acc h c hc
      split
      · exact hcons
      · exact ih _ _ hcons

theorem natRepr_tame (n : Nat) : tameChars (Nat.repr n).data = true := by
  have : (Nat.repr n).data = Nat.toDigits 10 n := rfl
  rw [this, Nat.toDigits]
  exact toDigitsCore_tame 10 (n + 1) n [] rfl

theorem pyIntStr_tame (i : Int) : tameChars (pyIntStr i).data = true := by
  unfold pyIntStr
  split
  · rw [String.data_append, tameChars_append, natRepr_tame]
    rfl
  · exact natRepr_tame _

theorem pad_tame (w n : Nat) : tameChars (pad w n).data = true := by
  unfold pad
  rw [String.data_append, tameChars_append]
  have h1 : tameChars (String.mk
      (List.replicate (w - (Nat.repr n).length) '0')).data = true := by
    simp only [tameChars, List.all_eq_true]
    intro c hc
    rw [List.eq_of_mem_replicate hc]
    rfl
  rw [h1, natRepr_tame]
  rfl

theorem strftimeTZ_tame (d : PyDateTime) :
    tameChars (strftimeTZ d).data = true := by
  unfold strftimeTZ
  simp only [String.data_append, tameChars_append, pad_tame]
  rfl

theorem pyDatetimeStr_tame (d : PyDateTime) :
    tameChars (pyDatetimeStr d).data = true := by
  unfold pyDatetimeStr
  simp only [String.data_append, tameChars_append, pad_tame]
  rfl

/-! ## String plumbing lemmas -/

theorem string_eq_of_data (s t : String) (h : s.data = t.data) : s = t := by
  cases s
  cases t
  exact congrArg String.mk h

theorem empty_append (s : String) : "" ++ s = s := by
  apply string_eq_of_data
  simp [String.data_append]

theorem append_empty (s : String) : s ++ "" = s := by
  apply string_eq_of_data
  simp [String.data_append]

theorem colFold_cat (fs : Record) :
    ∀ acc, colFold acc fs = acc ++ keysCat fs := by
  induction fs with
  | nil =>
      intro acc
      simp only [colFold, keysCat, append_empty]
  | cons kv rest ih =>
      intro acc
      obtain ⟨k, v⟩ := kv
      simp only [colFold, keysCat, ih, String.append_assoc]

theorem ivFold_cat (fs : Record) :
    ∀ acc, ivFold acc fs = acc ++ valuesCat fs := by
  induction fs with
  | nil =>
      intro acc
      rw [ivFold, valuesCat, append_empty]
  | cons kv rest ih =>
      intro acc
      obtain ⟨k, v⟩ := kv
      rw [ivFold, valuesCat, ih, String.append_assoc]

theorem parse_insert_values_cat (fs : Record) :
    parse_insert_values fs "" = valuesCat fs := by
  rw [parse_insert_values, ivFold_cat, empty_append]

theorem ivListFold_cat (xs : List Value) :
    ∀ acc, ivListFold acc xs = acc ++ itemsCat xs := by
  induction xs with
  | nil =>
      intro acc
      rw [ivListFold, itemsCat, append_empty]
  | cons item rest ih =>
      intro acc
      rw [ivListFold, ih, itemsCat, String.append_assoc]

/-- Every chunk the value-tuple loop appends ends with the `", "`
separator (unconditionally). -/
theorem insertChunk_ends (v : Value) :
    ∃ B, (insertChunk v).data = B ++ [',', ' '] := by
  cases v with
  | vlist xs =>
      refine ⟨((if pyEndsWith (ivListFold "[" xs) ", " = true then
        pyDropRight (ivListFold "[" xs) 2 else
        ivListFold "[" xs)).data ++ [']'], ?_⟩
      simp only [insertChunk, String.data_append]
      simp
  | vstr s =>
      exact ⟨(if pyIn "https://" s = true then "\"" ++ s ++ "\"" else s).data,
        by simp [insertChunk, String.data_append]⟩
  | vint i =>
      exact ⟨(pyIntStr i).data,
        by simp [insertChunk, String.data_append]⟩
  | vbool b =>
      exact ⟨(pyBoolStr b).data,
        by simp [insertChunk, String.data_append]⟩
  | vdatetime d =>
      exact ⟨(check_timestamp (strftimeTZ d ++ "Z")).data,
        by simp [insertChunk, String.data_append]⟩
  | vdict fs =>
      exact ⟨("(" ++ (if pyEndsWith (parse_insert_values fs "") ", " then
          pyDropRight (parse_insert_values fs "") 2
        else parse_insert_values fs "") ++ ")").data,
        by simp [insertChunk, String.data_append]⟩
  | vnone => exact ⟨['N', 'U', 'L', 'L'], by simp only [insertChunk]; rfl⟩
  | vother text t => exact ⟨['N', 'U', 'L', 'L'], by simp only [insertChunk]; rfl⟩

/-- Each piece of the inner list loop ends with `", "` . -/
theorem ivItemPiece_ends (item : Value) :
    ∃ P, (ivItemPiece item).data = P ++ [',', ' '] := by
  cases item with
  | vdict fs =>
      exact ⟨("(" ++ pyRstripCS (parse_insert_values fs "") ++ ")").data,
        by simp [ivItemPiece, String.data_append]⟩
  | vstr s =>
      exact ⟨(pyStr (.vstr s)).data,
        by simp [ivItemPiece, String.data_append]⟩
  | vint i =>
      exact ⟨(pyStr (.vint i)).data,
        by simp [ivItemPiece, String.data_append]⟩
  | vbool b =>
      exact ⟨(pyStr (.vbool b)).data,
        by simp [ivItemPiece, String.data_append]⟩
  | vdatetime d =>
      exact ⟨(pyStr (.vdatetime d)).data,
        by simp [ivItemPiece, String.data_append]⟩
  | vlist ys =>
      exact ⟨(pyStr (.vlist ys)).data,
        by simp [ivItemPiece, String.data_append]⟩
  | vnone =>
      exact ⟨(pyStr .vnone).data,
        by simp [ivItemPiece, String.data_append]⟩
  | vother text t =>
      exact ⟨(pyStr (.vother text t)).data,
        by simp [ivItemPiece, String.data_append]⟩

/-- For a nonempty list the whole items concatenation ends with
`", "`. -/
theorem itemsCat_ends (xs : List Value) (h : xs ≠ []) :
    ∃ D, (itemsCat xs).data = D ++ [',', ' '] := by
  induction xs with
  | nil => exact absurd rfl h
  | cons item rest ih =>
      by_cases hr : rest = []
      · subst hr
        obtain ⟨P, hP⟩ := ivItemPiece_ends item
        refine ⟨P, ?_⟩
        rw [itemsCat, itemsCat, append_empty, hP]
      · obtain ⟨D, hD⟩ := ih hr
        obtain ⟨P, hP⟩ := ivItemPiece_ends item
        refine ⟨(ivItemPiece item).data ++ D, ?_⟩
        rw [itemsCat, String.data_append, hD, List.append_assoc]

/-! ## rstrip preserves balance -/

theorem rstrip_decomp (s : String) :
    ∃ E, s.data = (pyRstripCS s).data ++ E
      ∧ ∀ c ∈ E, isCommaSpace c = true := by
  refine ⟨(s.data.reverse.takeWhile isCommaSpace).reverse, ?_, ?_⟩
  · conv_lhs => rw [← List.reverse_reverse s.data,
      ← List.takeWhile_append_dropWhile (p := isCommaSpace)
        (l := s.data.reverse)]
    rw [List.reverse_append]
    rfl
  · intro c hc
    rw [List.mem_reverse] at hc
    exact List.mem_takeWhile_imp hc

theorem isCommaSpace_flat (c : Char) (h : isCommaSpace c = true) :
    flatChar c = true := by
  simp only [isCommaSpace, Bool.or_eq_true, beq_iff_eq] at h
  rcases h with h | h <;> subst h <;> rfl

theorem bal_of_rstrip (s : String) (hd : cdelta s.data = 0)
    (hm : 0 ≤ minPref s.data) :
    cdelta (pyRstripCS s).data = 0 ∧ 0 ≤ minPref (pyRstripCS s).data := by
  obtain ⟨E, hE, hEcs⟩ := rstrip_decomp s
  have hEflat := flat_chars_props E
    (fun c hc => isCommaSpace_flat c (hEcs c hc))
  have h1 := cdelta_append (pyRstripCS s).data E
  have h2 := minPref_append (pyRstripCS s).data E
  rw [← hE] at h1 h2
  constructor
  · omega
  · omega

/-! ## Wrapping a balanced middle in brackets -/

theorem bal_wrap (o c : Char) (m : List Char) (ho : bracketStep o = 1)
    (hc : bracketStep c = -1) (hd : cdelta m = 0) (hm : 0 ≤ minPref m) :
    cdelta (o :: (m ++ [c])) = 0 ∧ 0 ≤ minPref (o :: (m ++ [c]))
    ∧ ∀ d : Int, 0 ≤ d → countFrom d (o :: (m ++ [c])) = 0 := by
  have hno : o ≠ ',' := by
    intro h
    subst h
    simp [bracketStep] at ho
  have hdel := cdelta_append m [c]
  have hmp := minPref_append m [c]
  have hcdel : cdelta [c] = -1 := by simp [cdelta, hc]
  have hcmp : minPref [c] = -1 := by simp [minPref, hc]
  refine ⟨?_, ?_, ?_⟩
  · simp only [cdelta, ho, hdel, hcdel, hd]
    omega
  · simp only [minPref, ho, hmp, hcmp, hd]
    omega
  · intro d hdpos
    simp only [countFrom, ho]
    rw [if_neg (by rintro ⟨h, _⟩; exact hno h)]
    rw [countFrom_append]
    have hczero : countFrom (d + 1 + cdelta m) [c] = 0 := by
      simp only [countFrom, hc]
      rw [if_neg (by
        rintro ⟨h, _⟩
        subst h
        simp [bracketStep] at hc)]
    have h2 := countFrom_eq_zero m (d + 1) (by omega)
    omega

/-! ## Balance bundles -/

theorem strBal_append (s t : String) (hs : StrBal s) (ht : StrBal t) :
    StrBal (s ++ t) := by
  obtain ⟨h1, h2⟩ := hs
  obtain ⟨h3, h4⟩ := ht
  have ha := cdelta_append s.data t.data
  have hb := minPref_append s.data t.data
  unfold StrBal
  rw [String.data_append]
  constructor <;> omega

theorem strBal_of_tame (s : String) (h : tameChars s.data = true) :
    StrBal s := by
  obtain ⟨h1, h2, _⟩ := tame_chars_props s.data h
  exact ⟨h1, le_of_eq h2.symm⟩

theorem flatAll_append (a b : List Char)
    (ha : ∀ c ∈ a, flatChar c = true) (hb : ∀ c ∈ b, flatChar c = true) :
    ∀ c ∈ a ++ b, flatChar c = true := by
  intro c hc
  rcases List.mem_append.mp hc with h | h
  · exact ha c h
  · exact hb c h

theorem flatAll_of_tame (cs : List Char) (h : tameChars cs = true) :
    ∀ c ∈ cs, flatChar c = true :=
  fun c hc => charTame_flat c (tame_chars_mem cs h c hc)

theorem paren_wrap (pre mid : List Char)
    (hpre : ∀ c ∈ pre, flatChar c = true)
    (hmid : ∀ c ∈ mid, flatChar c = true) :
    cdelta (pre ++ '(' :: (mid ++ [')'])) = 0
    ∧ 0 ≤ minPref (pre ++ '(' :: (mid ++ [')'])) := by
  have h1 := flat_chars_props pre hpre
  have h2 := flat_chars_props mid hmid
  have hw := bal_wrap '(' ')' mid (by decide) (by decide) h2.1
    (le_of_eq h2.2.symm)
  have ha := cdelta_append pre ('(' :: (mid ++ [')']))
  have hb := minPref_append pre ('(' :: (mid ++ [')']))
  constructor <;> omega

theorem tame_body_props (X : String) (hX : tameChars X.data = true) :
    cdelta X.data = 0 ∧ 0 ≤ minPref X.data ∧ countFrom 0 X.data = 0 := by
  obtain ⟨h1, h2, h3⟩ := tame_chars_props X.data hX
  exact ⟨h1, le_of_eq h2.symm, h3 0⟩

theorem data_append_sep (X : String) :
    (X ++ ", ").data = X.data ++ [',', ' '] := by
  rw [String.data_append]

theorem check_timestamp_tame (t : String) (h : tameChars t.data = true) :
    tameChars (check_timestamp t).data = true := by
  unfold check_timestamp
  split
  · decide
  · rw [String.data_append, String.data_append, tameChars_append,
      tameChars_append, h]
    decide

/-! ## Interpolated values are balanced -/

theorem strBal_sep : StrBal ", " := ⟨by decide, by decide⟩

mutual

theorem pyStr_bal (v : Value) (hv : tameVal v = true) : StrBal (pyStr v) := by
  cases v with
  | vstr s =>
      simp only [pyStr]
      exact strBal_of_tame s (by simpa [tameVal] using hv)
  | vint i =>
      simp only [pyStr]
      exact strBal_of_tame _ (pyIntStr_tame i)
  | vbool b =>
      simp only [pyStr]
      exact strBal_of_tame _ (by cases b <;> decide)
  | vdatetime d =>
      simp only [pyStr]
      exact strBal_of_tame _ (pyDatetimeStr_tame d)
  | vlist xs =>
      simp only [pyStr]
      have hJ := pyReprJoin_bal xs (by simpa [tameVal] using hv)
      have hw := bal_wrap '[' ']' (pyReprJoin xs).data (by decide) (by decide)
        hJ.1 hJ.2
      have hdata : ("[" ++ pyReprJoin xs ++ "]").data
          = '[' :: ((pyReprJoin xs).data ++ [']']) := by
        simp [String.data_append]
      unfold StrBal
      rw [hdata]
      exact ⟨hw.1, hw.2.1⟩
  | vdict fs =>
      simp only [pyStr]
      have hD := pyReprDictJoin_bal fs (by simpa [tameVal] using hv)
      apply strBal_append
      · apply strBal_append
        · exact ⟨by decide, by decide⟩
        · exact hD
      · exact ⟨by decide, by decide⟩
  | vnone =>
      simp only [pyStr]
      exact ⟨by decide, by decide⟩
  | vother text t =>
      simp only [pyStr]
      exact strBal_of_tame _ (by simpa [tameVal] using hv)

theorem pyRepr_bal (v : Value) (hv : tameVal v = true) : StrBal (pyRepr v) := by
  cases v with
  | vstr s =>
      simp only [pyRepr]
      apply strBal_append
      · apply strBal_append
        · exact ⟨by decide, by decide⟩
        · exact strBal_of_tame s (by simpa [tameVal] using hv)
      · exact ⟨by decide, by decide⟩
  | vint i =>
      simp only [pyRepr]
      exact strBal_of_tame _ (pyIntStr_tame i)
  | vbool b =>
      simp only [pyRepr]
      exact strBal_of_tame _ (by cases b <;> decide)
  | vdatetime d =>
      simp only [pyRepr]
      have hM : ∀ c ∈ (Nat.repr d.year ++ ", " ++ Nat.repr d.month ++ ", " ++
          Nat.repr d.day ++ ", " ++ Nat.repr d.hour ++ ", " ++
          Nat.repr d.minute ++
          (if d.second ≠ 0 then ", " ++ Nat.repr d.second else "")).data,
          flatChar c = true := by
        simp only [String.data_append]
        repeat' apply flatAll_append
        · exact flatAll_of_tame _ (natRepr_tame _)
        · intro c hc
          fin_cases hc <;> rfl
        · exact flatAll_of_tame _ (natRepr_tame _)
        · intro c hc
          fin_cases hc <;> rfl
        · exact flatAll_of_tame _ (natRepr_tame _)
        · intro c hc
          fin_cases hc <;> rfl
        · exact flatAll_of_tame _ (natRepr_tame _)
        · intro c hc
          fin_cases hc <;> rfl
        · exact flatAll_of_tame _ (natRepr_tame _)
        · split
          · simp only [String.data_append]
            apply flatAll_append
            · intro c hc
              fin_cases hc <;> rfl
            · exact flatAll_of_tame _ (natRepr_tame _)
          · intro c hc
            simp at hc
      have heq : pyDatetimeRepr d
          = ("datetime.datetime" ++ "(") ++
            ((Nat.repr d.year ++ ", " ++ Nat.repr d.month ++ ", " ++
              Nat.repr d.day ++ ", " ++ Nat.repr d.hour ++ ", " ++
              Nat.repr d.minute ++
              (if d.second ≠ 0 then ", " ++ Nat.repr d.second else "")) ++
              ")") := by
        unfold pyDatetimeRepr
        simp [String.append_assoc]
      have hdata : (pyDatetimeRepr d).data
          = ("datetime.datetime" : String).data ++
            ('(' :: ((Nat.repr d.year ++ ", " ++ Nat.repr d.month ++ ", " ++
              Nat.repr d.day ++ ", " ++ Nat.repr d.hour ++ ", " ++
              Nat.repr d.minute ++
              (if d.second ≠ 0 then ", " ++ Nat.repr d.second else "")).data
              ++ [')'])) := by
        rw [heq]
        simp [String.data_append, List.append_assoc]
      have hp := paren_wrap ("datetime.datetime" : String).data _
        (by intro c hc; fin_cases hc <;> rfl) hM
      unfold StrBal
      rw [hdata]
      exact hp
  | vlist xs =>
      simp only [pyRepr]
      have hJ := pyReprJoin_bal xs (by simpa [tameVal] using hv)
      have hw := bal_wrap '[' ']' (pyReprJoin xs).data (by decide) (by decide)
        hJ.1 hJ.2
      have hdata : ("[" ++ pyReprJoin xs ++ "]").data
          = '[' :: ((pyReprJoin xs).data ++ [']']) := by
        simp [String.data_append]
      unfold StrBal
      rw [hdata]
      exact ⟨hw.1, hw.2.1⟩
  | vdict fs =>
      simp only [pyRepr]
      have hD := pyReprDictJoin_bal fs (by simpa [tameVal] using hv)
      apply strBal_append
      · apply strBal_append
        · exact ⟨by decide, by decide⟩
        · exact hD
      · exact ⟨by decide, by decide⟩
  | vnone =>
      simp only [pyRepr]
      exact ⟨by decide, by decide⟩
  | vother text t =>
      simp only [pyRepr]
      exact strBal_of_tame _ (by simpa [tameVal] using hv)

theorem pyReprJoin_bal (xs : List Value) (hx : tameList xs = true) :
    StrBal (pyReprJoin xs) := by
  cases xs with
  | nil =>
      simp only [pyReprJoin]
      exact ⟨by decide, by decide⟩
  | cons x rest =>
      cases rest with
      | nil =>
          simp only [pyReprJoin]
          simp only [tameList, Bool.and_eq_true] at hx
          exact pyRepr_bal x hx.1
      | cons y ys =>
          simp only [pyReprJoin]
          simp only [tameList, Bool.and_eq_true] at hx
          apply strBal_append
          · apply strBal_append
            · exact pyRepr_bal x hx.1
            · exact strBal_sep
          · exact pyReprJoin_bal (y :: ys) (by
              simp only [tameList, Bool.and_eq_true]
              exact hx.2)

theorem pyReprDictJoin_bal (fs : Record) (hf : tameRec fs = true) :
    StrBal (pyReprDictJoin fs) := by
  cases fs with
  | nil =>
      simp only [pyReprDictJoin]
      exact ⟨by decide, by decide⟩
  | cons kv rest =>
      obtain ⟨k, v⟩ := kv
      cases rest with
      | nil =>
          simp only [pyReprDictJoin]
          simp only [tameRec, Bool.and_eq_true] at hf
          apply strBal_append
          · apply strBal_append
            · apply strBal_append
              · exact ⟨by decide, by decide⟩
              · exact strBal_of_tame k hf.1.1
            · exact ⟨by decide, by decide⟩
          · exact pyRepr_bal v hf.1.2
      | cons kv2 rest2 =>
          simp only [pyReprDictJoin]
          simp only [tameRec, Bool.and_eq_true] at hf
          apply strBal_append
          · apply strBal_append
            · apply strBal_append
              · apply strBal_append
                · apply strBal_append
                  · exact ⟨by decide, by decide⟩
                  · exact strBal_of_tame k hf.1.1
                · exact ⟨by decide, by decide⟩
              · exact pyRepr_bal v hf.1.2
            · exact strBal_sep
          · exact pyReprDictJoin_bal (kv2 :: rest2) (by
              simp only [tameRec, Bool.and_eq_true]
              exact hf.2)

end

/-! ## The value-tuple fragment has one chunk per key -/

theorem valuesCat_ends (fs : Record) (h : fs ≠ []) :
    ∃ B, (valuesCat fs).data = B ++ [',', ' '] := by
  induction fs with
  | nil => exact absurd rfl h
  | cons kv rest ih =>
      obtain ⟨k, v⟩ := kv
      by_cases hr : rest = []
      · subst hr
        obtain ⟨B, hB⟩ := insertChunk_ends v
        exact ⟨B, by rw [valuesCat, valuesCat, append_empty, hB]⟩
      · obtain ⟨D, hD⟩ := ih hr
        exact ⟨(insertChunk v).data ++ D,
          by rw [valuesCat, String.data_append, hD, List.append_assoc]⟩

mutual

theorem insertChunk_ok (v : Value) (hv : tameVal v = true) :
    ∃ B, (insertChunk v).data = B ++ [',', ' ']
      ∧ cdelta B = 0 ∧ 0 ≤ minPref B ∧ countFrom 0 B = 0 := by
  cases v with
  | vstr s =>
      have hs : tameChars s.data = true := by simpa [tameVal] using hv
      refine ⟨(if pyIn "https://" s = true then "\"" ++ s ++ "\"" else s).data,
        by simp only [insertChunk]; rw [data_append_sep], ?_⟩
      have hX : tameChars
          (if pyIn "https://" s = true then "\"" ++ s ++ "\"" else s).data
          = true := by
        split
        · rw [String.data_append, String.data_append, tameChars_append,
            tameChars_append, hs]
          decide
        · exact hs
      exact tame_body_props _ hX
  | vint i =>
      refine ⟨(pyIntStr i).data,
        by simp only [insertChunk]; rw [data_append_sep], ?_⟩
      exact tame_body_props _ (pyIntStr_tame i)
  | vbool b =>
      refine ⟨(pyBoolStr b).data,
        by simp only [insertChunk]; rw [data_append_sep], ?_⟩
      exact tame_body_props _ (by cases b <;> decide)
  | vdatetime d =>
      refine ⟨(check_timestamp (strftimeTZ d ++ "Z")).data,
        by simp only [insertChunk]; rw [data_append_sep], ?_⟩
      apply tame_body_props
      apply check_timestamp_tame
      rw [String.data_append, tameChars_append, strftimeTZ_tame]
      decide
  | vnone =>
      exact ⟨['N', 'U', 'L', 'L'], by simp only [insertChunk]; rfl,
        by decide, by decide, by decide⟩
  | vother text t =>
      exact ⟨['N', 'U', 'L', 'L'], by simp only [insertChunk]; rfl,
        by decide, by decide, by decide⟩
  | vdict fs =>
      have hf : tameRec fs = true := by simpa [tameVal] using hv
      have hvc := valuesCat_ok fs hf
      by_cases hnil : fs = []
      · subst hnil
        refine ⟨['(', ')'], ?_, by decide, by decide, by decide⟩
        simp only [insertChunk, parse_insert_values_cat, valuesCat]
        decide
      · obtain ⟨B, hB⟩ := valuesCat_ends fs hnil
        have hstr : valuesCat fs = String.mk B ++ ", " := by
          apply string_eq_of_data
          rw [hB, String.data_append]
        have hBd : cdelta B = 0 := by
          have h1 := hvc.1
          rw [hB, cdelta_append] at h1
          have : cdelta [',', ' '] = 0 := by decide
          omega
        have hBm : 0 ≤ minPref B := by
          have h1 := hvc.2.1
          rw [hB, minPref_append] at h1
          have : minPref [',', ' '] = 0 := by decide
          omega
        have hw := bal_wrap '(' ')' B (by decide) (by decide) hBd hBm
        refine ⟨'(' :: (B ++ [')']), ?_, hw.1, hw.2.1, hw.2.2 0 le_rfl⟩
        simp only [insertChunk, parse_insert_values_cat, hstr,
          pyEndsWith_append_sep, if_true]
        rw [pyDropRight_append_sep]
        simp [String.data_append, List.append_assoc]
  | vlist xs =>
      have hx : tameList xs = true := by simpa [tameVal] using hv
      by_cases hnil : xs = []
      · subst hnil
        refine ⟨['[', ']'], ?_, by decide, by decide, by decide⟩
        simp only [insertChunk]
        rw [ivListFold_cat, itemsCat, append_empty]
        decide
      · obtain ⟨D, hD⟩ := itemsCat_ends xs hnil
        have hic := itemsCat_ok xs hx
        have hcatstr : itemsCat xs = String.mk D ++ ", " := by
          apply string_eq_of_data
          rw [hD, String.data_append]
        have hDd : cdelta D = 0 := by
          have h1 : cdelta (itemsCat xs).data = 0 := hic.1
          rw [hD, cdelta_append] at h1
          have : cdelta [',', ' '] = 0 := by decide
          omega
        have hDm : 0 ≤ minPref D := by
          have h1 : 0 ≤ minPref (itemsCat xs).data := hic.2
          rw [hD, minPref_append] at h1
          have : minPref [',', ' '] = 0 := by decide
          omega
        have hw := bal_wrap '[' ']' D (by decide) (by decide) hDd hDm
        refine ⟨'[' :: (D ++ [']']), ?_, hw.1, hw.2.1, hw.2.2 0 le_rfl⟩
        have hchild : ivListFold "[" xs = ("[" ++ String.mk D) ++ ", " := by
          rw [ivListFold_cat, hcatstr, String.append_assoc]
        simp only [insertChunk, hchild, pyEndsWith_append_sep, if_true]
        rw [pyDropRight_append_sep]
        simp [String.data_append, List.append_assoc]

theorem ivItemPiece_ok (item : Value) (h : tameVal item = true) :
    StrBal (ivItemPiece item) := by
  cases item with
  | vdict fs =>
      have hvc := valuesCat_ok fs (by simpa [tameVal] using h)
      have hR := bal_of_rstrip (valuesCat fs) hvc.1 hvc.2.1
      have hw := bal_wrap '(' ')' (pyRstripCS (valuesCat fs)).data
        (by decide) (by decide) hR.1 hR.2
      have hdata : (ivItemPiece (.vdict fs)).data
          = ('(' :: ((pyRstripCS (valuesCat fs)).data ++ [')'])) ++
            [',', ' '] := by
        simp only [ivItemPiece, parse_insert_values_cat]
        simp [String.data_append, List.append_assoc]
      unfold StrBal
      rw [hdata]
      have ha := cdelta_append ('(' :: ((pyRstripCS (valuesCat fs)).data
        ++ [')'])) [',', ' ']
      have hb := minPref_append ('(' :: ((pyRstripCS (valuesCat fs)).data
        ++ [')'])) [',', ' ']
      have hsd : cdelta [',', ' '] = 0 := by decide
      have hsm : minPref [',', ' '] = 0 := by decide
      have hw1 := hw.1
      have hw2 := hw.2.1
      constructor <;> omega
  | vstr s =>
      simp only [ivItemPiece]
      exact strBal_append _ _ (pyStr_bal (.vstr s) h) strBal_sep
  | vint i =>
      simp only [ivItemPiece]
      exact strBal_append _ _ (pyStr_bal (.vint i) h) strBal_sep
  | vbool b =>
      simp only [ivItemPiece]
      exact strBal_append _ _ (pyStr_bal (.vbool b) h) strBal_sep
  | vdatetime d =>
      simp only [ivItemPiece]
      exact strBal_append _ _ (pyStr_bal (.vdatetime d) h) strBal_sep
  | vlist ys =>
      simp only [ivItemPiece]
      exact strBal_append _ _ (pyStr_bal (.vlist ys) h) strBal_sep
  | vnone =>
      simp only [ivItemPiece]
      exact strBal_append _ _ (pyStr_bal .vnone h) strBal_sep
  | vother text t =>
      simp only [ivItemPiece]
      exact strBal_append _ _ (pyStr_bal (.vother text t) h) strBal_sep

theorem itemsCat_ok (xs : List Value) (hx : tameList xs = true) :
    StrBal (itemsCat xs) := by
  cases xs with
  | nil =>
      rw [itemsCat]
      exact ⟨by decide, by decide⟩
  | cons item rest =>
      simp only [tameList, Bool.and_eq_true] at hx
      rw [itemsCat]
      exact strBal_append _ _ (ivItemPiece_ok item hx.1)
        (itemsCat_ok rest hx.2)

theorem valuesCat_ok (fs : Record) (hf : tameRec fs = true) :
    cdelta (valuesCat fs).data = 0 ∧ 0 ≤ minPref (valuesCat fs).data
      ∧ countFrom 0 (valuesCat fs).data = fs.length := by
  cases fs with
  | nil =>
      rw [valuesCat]
      exact ⟨by decide, by decide, by decide⟩
  | cons kv rest =>
      obtain ⟨k, v⟩ := kv
      simp only [tameRec, Bool.and_eq_true] at hf
      obtain ⟨B, hB, hBd, hBm, hBc⟩ := insertChunk_ok v hf.1.2
      have ih := valuesCat_ok rest hf.2
      rw [valuesCat, String.data_append, hB]
      have h1 := cdelta_append (B ++ [',', ' ']) (valuesCat rest).data
      have h2 := cdelta_append B [',', ' ']
      have h3 := minPref_append (B ++ [',', ' ']) (valuesCat rest).data
      have h4 := minPref_append B [',', ' ']
      have h5 := countFrom_append 0 (B ++ [',', ' ']) (valuesCat rest).data
      have h6 := countFrom_append 0 B [',', ' ']
      have hsd : cdelta [',', ' '] = 0 := by decide
      have hsm : minPref [',', ' '] = 0 := by decide
      have hsc : ∀ d : Int, d = 0 → countFrom d [',', ' '] = 1 := by
        intro d hd
        subst hd
        decide
      have hbs : cdelta (B ++ [',', ' ']) = 0 := by omega
      have h6' : countFrom 0 (B ++ [',', ' ']) = 1 := by
        rw [h6, hBc, hsc (0 + cdelta B) (by omega)]
      have h5' : countFrom 0 ((B ++ [',', ' ']) ++ (valuesCat rest).data)
          = 1 + countFrom (0 + cdelta (B ++ [',', ' ']))
              (valuesCat rest).data := by
        rw [h5, h6']
      have hzero : (0 : Int) + cdelta (B ++ [',', ' ']) = 0 := by omega
      rw [hzero] at h5'
      refine ⟨by omega, by omega, ?_⟩
      rw [h5', ih.2.2, List.length_cons]
      omega

end

/-! ## Column-list structure -/

theorem keysCat_join (fs : Record) (h : fs ≠ []) :
    keysCat fs = joinComma (fs.map Prod.fst) ++ ", " := by
  induction fs with
  | nil => exact absurd rfl h
  | cons kv rest ih =>
      obtain ⟨k, v⟩ := kv
      cases rest with
      | nil =>
          rw [keysCat, keysCat, append_empty]
          simp [joinComma]
      | cons kv2 rest2 =>
          rw [keysCat, ih (List.cons_ne_nil _ _)]
          simp only [List.map_cons, joinComma, String.append_assoc]

theorem tameRec_keys (fs : Record) (h : tameRec fs = true) :
    ∀ k ∈ fs.map Prod.fst, tameChars k.data = true := by
  induction fs with
  | nil => intro k hk; simp at hk
  | cons kv rest ih =>
      obtain ⟨k0, v⟩ := kv
      simp only [tameRec, Bool.and_eq_true] at h
      intro k hk
      simp only [List.map_cons, List.mem_cons] at hk
      rcases hk with hk | hk
      · subst hk
        exact h.1.1
      · exact ih h.2 k hk

theorem joinComma_count (ks : List String)
    (h : ∀ k ∈ ks, tameChars k.data = true) (hne : ks ≠ []) :
    countFrom 0 (joinComma ks).data = ks.length - 1 := by
  induction ks with
  | nil => exact absurd rfl hne
  | cons k rest ih =>
      cases rest with
      | nil =>
          rw [joinComma]
          have := tame_chars_props k.data (h k (by simp))
          simp [this.2.2 0]
      | cons l rest2 =>
          rw [joinComma, String.data_append, String.data_append]
          have hk := tame_chars_props k.data (h k (by simp))
          have hrest := ih (fun x hx => h x (by simp [hx]))
            (List.cons_ne_nil _ _)
          rw [countFrom_append, countFrom_append]
          have h1 : countFrom 0 k.data = 0 := hk.2.2 0
          have h2 : cdelta k.data = 0 := hk.1
          have h3 : countFrom (0 + cdelta k.data) (", " : String).data = 1 := by
            rw [h2]
            decide
          have h4 : cdelta (", " : String).data = 0 := by decide
          have h5 : (0 : Int) + cdelta (k.data ++ (", " : String).data)
              = 0 := by
            rw [cdelta_append]
            omega
          rw [h5, h1, h3, hrest]
          simp only [List.length_cons]
          omega

/-! ## Claim C1 — UPDATE rendering of Records inside sequences -/

/-- C1 evaluated at the failing input: for the Record
`{"k": [{"x": 1}]}` the UPDATE builder renders the nested Record as
`STRUCT(x = 1, )` — the trailing `", "` separator is NOT stripped
before the closing parenthesis, because the source line
`child.rstrip(", ")` discards its result.  The claim (and the spec's
intended `[STRUCT(x = 1)]`) does not hold of the code as written. -/
theorem C1_update_struct_keeps_trailing_sep :
    parse_update_query_data "p.d.t" [("k", .vlist [.vdict [("x", .vint 1)]])]
        none none
      = "UPDATE p.d.t SET k = [STRUCT(x = 1, )], " := by
  simp only [parse_update_query_data, updFold, updItems, optTruthy, optStr]
  rfl

/-! ## Claim C2 — UPDATE scalar formatting versus the value tuple builder -/

/-- C2 counterexample: for a timestamp value the UPDATE builder emits
`TIMESTAMP("...")`, an additional wrapping the INSERT value builder
does not apply, so timestamp formatting is NOT identical in the two
builders. -/
theorem C2_counterexample :
    parse_insert_values [("t", .vdatetime ⟨2020, 1, 2, 3, 4, 5⟩)] ""
        = "\"2020-01-02T03:04:05Z\", "
    ∧ parse_update_query_data "p.d.t"
        [("t", .vdatetime ⟨2020, 1, 2, 3, 4, 5⟩)] none none
        = "UPDATE p.d.t SET t = TIMESTAMP(\"2020-01-02T03:04:05Z\"), "
    ∧ parse_update_query_data "p.d.t"
        [("t", .vdatetime ⟨2020, 1, 2, 3, 4, 5⟩)] none none
        ≠ "UPDATE p.d.t SET t = \"2020-01-02T03:04:05Z\", " := by
  have h1 : parse_insert_values
      [("t", Value.vdatetime ⟨2020, 1, 2, 3, 4, 5⟩)] ""
      = "\"2020-01-02T03:04:05Z\", " := by
    simp only [parse_insert_values, ivFold, insertChunk]
    rfl
  have h2 : parse_update_query_data "p.d.t"
      [("t", Value.vdatetime ⟨2020, 1, 2, 3, 4, 5⟩)] none none
      = "UPDATE p.d.t SET t = TIMESTAMP(\"2020-01-02T03:04:05Z\"), " := by
    simp only [parse_update_query_data, updFold, optTruthy, optStr]
    rfl
  refine ⟨h1, h2, ?_⟩
  rw [h2]
  decide

/-- C2 amended: the UPDATE builder formats plain scalar values (string,
int, bool, None) exactly as the value tuple builder does, but a
timestamp value — formatted and quoted identically by both — is
additionally wrapped in `TIMESTAMP(...)` by the UPDATE builder, a third
deviation beyond dotted key paths and STRUCT rendering. -/
theorem C2_update_scalar_formatting (ref k : String) (v : Value)
    (dt : PyDateTime) (h : isPlainScalar v = true) :
    parse_update_query_data ref [(k, v)] none none
      = "UPDATE " ++ ref ++ " SET " ++ k ++ " = " ++
          pyDropRight (insertChunk v) 2 ++ ", "
    ∧ parse_update_query_data ref [(k, .vdatetime dt)] none none
      = "UPDATE " ++ ref ++ " SET " ++ k ++ " = TIMESTAMP(" ++
          pyDropRight (insertChunk (.vdatetime dt)) 2 ++ "), "
    ∧ insertChunk (.vdatetime dt)
      = check_timestamp (strftimeTZ dt ++ "Z") ++ ", " := by
  refine ⟨?_, ?_, by simp only [insertChunk]⟩
  · cases v with
    | vstr s =>
        simp only [parse_update_query_data, updFold, insertChunk, optTruthy,
          optStr]
        simp [String.append_assoc]
        rw [pyDropRight_append_sep]
    | vint i =>
        simp only [parse_update_query_data, updFold, insertChunk, optTruthy,
          optStr]
        simp [String.append_assoc]
        rw [pyDropRight_append_sep]
    | vbool b =>
        simp only [parse_update_query_data, updFold, insertChunk, optTruthy,
          optStr]
        simp [String.append_assoc]
        rw [pyDropRight_append_sep]
    | vnone =>
        simp only [parse_update_query_data, updFold, insertChunk, optTruthy,
          optStr, show pyDropRight "NULL, " 2 = "NULL" from rfl]
        simp [String.append_assoc]
    | _ => simp [isPlainScalar] at h
  · simp only [parse_update_query_data, updFold, insertChunk, optTruthy,
      optStr]
    simp [String.append_assoc]
    rw [pyDropRight_append_sep]

/-- C2 witness. -/
theorem C2_update_scalar_formatting_witness :
    parse_update_query_data "p.d.t" [("n", .vint 42)] none none
      = "UPDATE " ++ "p.d.t" ++ " SET " ++ "n" ++ " = " ++
          pyDropRight (insertChunk (.vint 42)) 2 ++ ", " :=
  (C2_update_scalar_formatting "p.d.t" "n" (.vint 42)
    ⟨2020, 1, 2, 3, 4, 5⟩ rfl).1

/-! ## Claim C3 — NULL fallback for unsupported values -/

/-- C3 counterexample: a truthy value of unsupported type (the float
`2.5`) formats to `NULL` in the INSERT value builder, but the UPDATE
builder silently OMITS its assignment (the fallback branch is
`elif not value`, which only fires for falsy values), so the claim that
both builders emit `NULL` rather than omitting the position fails. -/
theorem C3_counterexample :
    parse_insert_values [("k", .vother "2.5" true)] "" = "NULL, "
    ∧ parse_update_query_data "p.d.t" [("k", .vother "2.5" true)] none none
        = "UPDATE p.d.t SET " := by
  constructor
  · simp only [parse_insert_values, ivFold, insertChunk]
    rfl
  · simp only [parse_update_query_data, updFold, optTruthy, optStr]
    simp

/-- C3 amended: at any position of any Record, the INSERT value builder
emits `NULL` for a value of unsupported type — truthy or falsy — and
for `None`; the UPDATE builder emits `key = NULL` only for FALSY
unsupported values and for `None`, and appends nothing at all for a
truthy unsupported value. -/
theorem C3_null_fallback (ref k text : String) (t : Bool) (base q : String)
    (rest : Record) :
    parse_insert_values ((k, .vother text t) :: rest) base
      = parse_insert_values rest (base ++ "NULL, ")
    ∧ parse_insert_values ((k, .vnone) :: rest) base
      = parse_insert_values rest (base ++ "NULL, ")
    ∧ updFold ref none q ((k, .vother text true) :: rest)
      = updFold ref none q rest
    ∧ updFold ref none q ((k, .vother text false) :: rest)
      = updFold ref none (q ++ k ++ " = NULL, ") rest
    ∧ updFold ref none q ((k, .vnone) :: rest)
      = updFold ref none (q ++ k ++ " = NULL, ") rest := by
  refine ⟨?_, ?_, ?_, ?_, ?_⟩ <;>
    simp [parse_insert_values, ivFold, insertChunk, updFold, optTruthy,
      optStr, String.append_assoc]

/-! ## Claim C4 — Column List Builder on the empty Record -/

/-- C4 counterexample: the Column List Builder applied to the empty
Record does not yield `"() "`. -/
theorem C4_counterexample :
    parse_insert_columns [] "(" ≠ "() " := by
  simp only [parse_insert_columns, colFold]
  decide

/-- C4 amended: the Column List Builder applied to the empty Record
yields just the opening parenthesis `"("` — the loop never runs, the
accumulated string does not end with `", "`, so the `") "` suffix is
never appended. -/
theorem C4_empty_record_columns :
    parse_insert_columns [] "(" = "(" := by
  simp only [parse_insert_columns, colFold]
  decide

/-! ## Claim C8 — dispatcher on unrecognized query kinds -/

/-- C8: for any query kind other than SELECT, INSERT and UPDATE the
dispatcher fails with the `ValueError` (InvalidArgument-kind error) and
produces no query string. -/
theorem C8_dispatcher_invalid_kind (tableRef : String) (data : Option Record)
    (queryType : String) (querySelect queryWhere : Option String)
    (h1 : queryType ≠ "SELECT") (h2 : queryType ≠ "INSERT")
    (h3 : queryType ≠ "UPDATE") :
    generate_sql_query tableRef data queryType querySelect queryWhere
      = .error (.valueError "query_type not one of SELECT, INSERT, UPDATE") := by
  simp [generate_sql_query, h1, h2, h3]

/-- C8 witness: the dispatcher with kind `"DELETE"`. -/
theorem C8_dispatcher_invalid_kind_witness :
    generate_sql_query "p.d.t" none "DELETE" none none
      = .error (.valueError "query_type not one of SELECT, INSERT, UPDATE") :=
  C8_dispatcher_invalid_kind "p.d.t" none "DELETE" none none
    (by decide) (by decide) (by decide)

/-! ## Claim C9 — dispatcher SELECT shapes -/

/-- C9: SELECT with neither a select-list nor a where-clause yields
exactly `SELECT * FROM <table-ref>`; with both (truthy) it yields
exactly `SELECT <select-list> FROM <table-ref> <where-clause>`. -/
theorem C9_dispatcher_select (tableRef sel w : String)
    (hs : sel ≠ "") (hw : w ≠ "") :
    generate_sql_query tableRef none "SELECT" none none
      = .ok ("SELECT * FROM " ++ tableRef)
    ∧ generate_sql_query tableRef none "SELECT" (some sel) (some w)
      = .ok ("SELECT " ++ sel ++ " FROM " ++ tableRef ++ " " ++ w) := by
  constructor
  · simp [generate_sql_query, optTruthy, optStr]
  · simp [generate_sql_query, optTruthy, optStr, hs, hw]

/-- C9 witness. -/
theorem C9_dispatcher_select_witness :
    generate_sql_query "p.d.t" none "SELECT" none none
      = .ok ("SELECT * FROM " ++ "p.d.t")
    ∧ generate_sql_query "p.d.t" none "SELECT" (some "id") (some "WHERE id = 1")
      = .ok ("SELECT " ++ "id" ++ " FROM " ++ "p.d.t" ++ " " ++
          "WHERE id = 1") :=
  C9_dispatcher_select "p.d.t" "id" "WHERE id = 1" (by decide) (by decide)

/-! ## Claim C7 — the identifier sanitizer -/

/-- C7 counterexample: on the empty string the sanitizer raises an
`IndexError` (indexing `tmp_str[0]` of an empty string) instead of
returning a field name, so it does not return a compliant name for
EVERY input string. -/
theorem C7_counterexample :
    str_to_gbq_field_name "" = none := rfl

/-- C7 amended: for every input string whose whitespace-stripped form
is nonempty (so the function returns at all), the result contains only
alphanumeric characters and underscores, has length at most 128, and
does not start with a digit. -/
theorem C7_sanitizer_output (s r : String)
    (h : str_to_gbq_field_name s = some r) :
    (∀ c ∈ r.data, c.isAlphanum ∨ c = '_')
    ∧ r.length ≤ 128
    ∧ (∀ c, r.data.head? = some c → c.isDigit = false) := by
  unfold str_to_gbq_field_name at h
  rcases hc : (pyStrip s).data.map (fun c => if c.isAlphanum then c else '_')
    with _ | ⟨c, rest⟩
  · rw [hc] at h
    simp at h
  · rw [hc] at h
    simp only [Option.some.injEq] at h
    subst h
    have hmem : ∀ x ∈ (c :: rest), x.isAlphanum ∨ x = '_' := by
      intro x hx
      rw [← hc] at hx
      rcases List.mem_map.mp hx with ⟨y, _, hy⟩
      by_cases ha : y.isAlphanum
      · left
        rw [← hy]
        simp [ha]
      · right
        rw [← hy]
        simp [ha]
    refine ⟨?_, ?_, ?_⟩
    · intro x hx
      have hx' := List.take_subset 128 _ hx
      by_cases hd : c.isDigit
      · rw [if_pos hd] at hx'
        rcases List.mem_cons.mp hx' with h1 | h1
        · right
          exact h1
        · exact hmem x h1
      · rw [if_neg hd] at hx'
        exact hmem x hx'
    · rw [String.length, List.length_take]
      exact min_le_left _ _
    · intro x hx
      by_cases hd : c.isDigit
      · rw [if_pos hd] at hx
        rw [show (128 : Nat) = 127 + 1 from rfl, List.take_succ_cons] at hx
        simp only [List.head?_cons, Option.some.injEq] at hx
        rw [← hx]
        decide
      · rw [if_neg hd] at hx
        rw [show (128 : Nat) = 127 + 1 from rfl, List.take_succ_cons] at hx
        simp only [List.head?_cons, Option.some.injEq] at hx
        rw [← hx]
        simpa using hd

/-- C7 witness: the input `" 9a b!"` strips to `"9a b!"`, maps to
`"9a_b_"` prefixed rules, and the amended properties hold of the
output `"_9a_b_"`. -/
theorem C7_sanitizer_output_witness :
    (∀ c ∈ ("_9a_b_" : String).data, c.isAlphanum ∨ c = '_')
    ∧ ("_9a_b_" : String).length ≤ 128
    ∧ (∀ c, ("_9a_b_" : String).data.head? = some c → c.isDigit = false) :=
  C7_sanitizer_output " 9a b!" "_9a_b_" rfl

/-! ## Claim C10 — the empty-value pruning pass -/

mutual

theorem cleanVal_drop (v : Value) :
    cleanVal (drop_empty_iters v) = true
    ∧ drop_empty_iters (drop_empty_iters v) = drop_empty_iters v := by
  cases v with
  | vlist xs =>
      have h := cleanList_deiList xs
      exact ⟨by simp only [drop_empty_iters, cleanVal, h.1],
        by simp only [drop_empty_iters, h.2]⟩
  | vdict fs =>
      have h := cleanDict_deiDict fs
      exact ⟨by simp only [drop_empty_iters, cleanVal, h.1],
        by simp only [drop_empty_iters, h.2]⟩
  | vstr s => exact ⟨rfl, rfl⟩
  | vint i => exact ⟨rfl, rfl⟩
  | vbool b => exact ⟨rfl, rfl⟩
  | vdatetime d => exact ⟨rfl, rfl⟩
  | vnone => exact ⟨rfl, rfl⟩
  | vother text t => exact ⟨rfl, rfl⟩

theorem cleanList_deiList (xs : List Value) :
    cleanList (deiList xs) = true ∧ deiList (deiList xs) = deiList xs := by
  cases xs with
  | nil => exact ⟨rfl, rfl⟩
  | cons x rest =>
      have hx := cleanVal_drop x
      have hrest := cleanList_deiList rest
      by_cases ht : pyTruthy (drop_empty_iters x) = true
      · constructor
        · simp only [deiList, ht, if_true, cleanList, hx.1, hrest.1,
            Bool.and_true, Bool.and_self]
        · simp only [deiList, ht, if_true, hx.2, hrest.2]
      · constructor
        · simp only [deiList, ht, if_false, Bool.false_eq_true, hrest.1]
        · simp only [deiList, ht, if_false, Bool.false_eq_true, hrest.2]

theorem cleanDict_deiDict (fs : List (String × Value)) :
    cleanDict (deiDict fs) = true ∧ deiDict (deiDict fs) = deiDict fs := by
  cases fs with
  | nil => exact ⟨rfl, rfl⟩
  | cons kv rest =>
      obtain ⟨k, x⟩ := kv
      have hx := cleanVal_drop x
      have hrest := cleanDict_deiDict rest
      by_cases he : isEmptyOrNone (drop_empty_iters x) = true
      · constructor
        · simp only [deiDict, he, if_true, hrest.1]
        · simp only [deiDict, he, if_true, hrest.2]
      · constructor
        · simp only [deiDict, he, if_false, Bool.false_eq_true, cleanDict,
            hx.1, hrest.1]
          simp [he]
        · simp only [deiDict, he, if_false, Bool.false_eq_true, hx.2,
            hrest.2]

end

/-- C10: the pruning pass establishes the claimed invariant — after
`drop_empty_iters`, no dict value at any depth is `{}`, `[]` or `None`
and every list element at any depth is truthy — and it is idempotent;
in particular, falsy scalars (`0`, `False`, `""`) are dropped from
lists but kept as dict values. -/
theorem C10_drop_empty_iters :
    (∀ v : Value, cleanVal (drop_empty_iters v) = true
      ∧ drop_empty_iters (drop_empty_iters v) = drop_empty_iters v)
    ∧ drop_empty_iters (.vlist [.vint 0, .vbool false, .vstr ""]) = .vlist []
    ∧ drop_empty_iters
        (.vdict [("a", .vint 0), ("b", .vbool false), ("c", .vstr "")])
      = .vdict [("a", .vint 0), ("b", .vbool false), ("c", .vstr "")] := by
  refine ⟨fun v => cleanVal_drop v, ?_, ?_⟩ <;>
    simp [drop_empty_iters, deiList, deiDict, pyTruthy, isEmptyOrNone]

/-! ## Claim C6 — the upsert orchestrator -/

/-- The SELECT issued by the orchestrator for a given id value. -/
theorem upsert_select_query (ref : String) (idv : Value) :
    generate_sql_query ref none "SELECT" none
      (some ("WHERE id = " ++ pyStr idv))
      = .ok ("SELECT * FROM " ++ ref ++ " " ++
          ("WHERE id = " ++ pyStr idv)) := by
  have hne : ("WHERE id = " ++ pyStr idv) ≠ "" :=
    append_ne_empty_left _ _ (by decide)
  simp [generate_sql_query, optTruthy, optStr, hne]

/-- When the executor reports the search as not found (absent result),
the orchestrator fails with the attribute error. -/
theorem upsert_notfound (ex : Executor) (ref : String) (data : Record)
    (idv : Value) (hid : pyGet data "id" = some idv)
    (hsel : ex ("SELECT * FROM " ++ ref ++ " " ++
      ("WHERE id = " ++ pyStr idv)) = none) :
    insert_or_update ex ref data = .error .attributeError := by
  simp only [insert_or_update, hid, upsert_select_query, run_bq_query, hsel]

/-- C6 counterexample: when the execution interface reports not-found
as an explicit error — i.e. `run_bq_query` hands back the absent result
(`None`) — the orchestrator does NOT complete: reading `total_rows` off
`None` is an `AttributeError`. -/
theorem C6_counterexample :
    insert_or_update (fun _ => none) "p.d.t" [("id", .vint 1)]
      = .error .attributeError :=
  upsert_notfound (fun _ => none) "p.d.t" [("id", .vint 1)] (.vint 1) rfl rfl

/-- C6 amended: for a Record with an `id` field, the orchestrator
issues `SELECT * FROM <table-ref> WHERE id = <id>`; when the interface
returns a result it completes — executing the built INSERT when the
result reports zero rows, and the built UPDATE otherwise — but when the
interface reports not-found as an absent result the orchestrator fails
with an attribute error instead of completing. -/
theorem C6_upsert (ex : Executor) (ref : String) (data : Record)
    (idv : Value) (r : QueryResult) (uq : String)
    (hid : pyGet data "id" = some idv)
    (hsel : ex ("SELECT * FROM " ++ ref ++ " " ++ ("WHERE id = " ++ pyStr idv))
      = some r)
    (hupd : generate_sql_query ref (some data) "UPDATE" none
      (some ("WHERE id = " ++ pyStr idv)) = .ok uq) :
    (r.total_rows = 0 →
      insert_or_update ex ref data
        = .ok (if (ex (parse_insert_query_data ref data)).isSome then
                "INSERT successful for ticket metric " ++ pyStr idv
              else "INSERT failed for ticket metric " ++ pyStr idv))
    ∧ (r.total_rows ≠ 0 →
      insert_or_update ex ref data
        = .ok (if (ex uq).isSome then
                "UPDATE successful for ticket metric " ++ pyStr idv
              else "UPDATE failed for ticket metric " ++ pyStr idv)) := by
  have hins : insert_record ex ref data
      = .ok (run_bq_query ex (parse_insert_query_data ref data)) := by
    simp [insert_record, generate_sql_query]
  have hupdr : update_record ex ref data = .ok (run_bq_query ex uq) := by
    simp only [update_record, hid, hupd]
  constructor
  · intro h0
    simp only [insert_or_update, hid, upsert_select_query, run_bq_query,
      hsel, h0, if_true, hins]
  · intro hnz
    simp only [insert_or_update, hid, upsert_select_query, run_bq_query,
      hsel, if_neg hnz, hupdr]

/-- C6 witness: with an `id` of `1` and an executor returning zero rows
for the search, the orchestrator runs the INSERT and reports success. -/
theorem C6_upsert_witness :
    insert_or_update exC6 "p.d.t" [("id", .vint 1)]
      = .ok "INSERT successful for ticket metric 1" := by
  have h := (C6_upsert exC6 "p.d.t" [("id", .vint 1)] (.vint 1) ⟨0⟩
    "UPDATE p.d.t SET id = 1 WHERE id = 1"
    rfl
    (by simp only [pyStr]
        rfl)
    (by simp only [pyStr, generate_sql_query, parse_update_query_data,
          updFold, optTruthy, optStr]
        rfl)).1 rfl
  rw [h]
  simp only [pyStr, parse_insert_query_data, parse_insert_columns,
    colFold, parse_insert_values, ivFold, insertChunk]
  rfl

/-! ## Claim C5 — positional alignment of columns and values -/

/-- C5 counterexample: for the Record `{"k": "a, b"}` (a string value
containing a raw top-level `", "`), the column-list fragment has ONE
top-level position but the (separator-stripped) value-tuple fragment
splits into TWO top-level positions, because string values are emitted
unescaped. -/
theorem C5_counterexample :
    parse_insert_columns [("k", .vstr "a, b")] "(" = "(k) "
    ∧ pyDropRight (parse_insert_values [("k", .vstr "a, b")] "") 2 = "a, b"
    ∧ topPositions "k" = 1
    ∧ topPositions "a, b" = 2
    ∧ topPositions "a, b" ≠ topPositions "k" := by
  refine ⟨by decide, ?_, by decide, by decide, by decide⟩
  simp only [parse_insert_values, ivFold, insertChunk]
  decide

/-- C5 amended: for every NONEMPTY Record that is tame — no comma and
no bracket character occurs in any key, string value or other-object
text at any depth — the column-list fragment is the parenthesized
comma-join of the keys in Record order, and both it and the
separator-stripped value-tuple fragment have exactly one top-level
comma-separated position per key. -/
theorem C5_positions (fs : Record) (hne : fs ≠ []) (ht : tameRec fs = true) :
    parse_insert_columns fs "("
      = "(" ++ joinComma (fs.map Prod.fst) ++ ") "
    ∧ topPositions (joinComma (fs.map Prod.fst)) = fs.length
    ∧ pyEndsWith (parse_insert_values fs "") ", " = true
    ∧ topPositions (pyDropRight (parse_insert_values fs "") 2)
      = fs.length := by
  have hlen : 1 ≤ fs.length := by
    cases fs with
    | nil => exact absurd rfl hne
    | cons kv rest => simp
  have hkeys := keysCat_join fs hne
  have hcols : parse_insert_columns fs "("
      = "(" ++ joinComma (fs.map Prod.fst) ++ ") " := by
    rw [parse_insert_columns, colFold_cat, hkeys, ← String.append_assoc,
      pyEndsWith_append_sep]
    simp only [if_true]
    rw [pyDropRight_append_sep]
  have hc1 : countFrom 0 (joinComma (fs.map Prod.fst)).data
      = fs.length - 1 := by
    have := joinComma_count _ (tameRec_keys fs ht) (by simpa using hne)
    rwa [List.length_map] at this
  have hcat := parse_insert_values_cat fs
  have hvo := valuesCat_ok fs ht
  obtain ⟨B, hB⟩ := valuesCat_ends fs hne
  have hstr : valuesCat fs = String.mk B ++ ", " := by
    apply string_eq_of_data
    rw [hB, String.data_append]
  have hBd : cdelta B = 0 := by
    have h1 := hvo.1
    rw [hB, cdelta_append] at h1
    have : cdelta [',', ' '] = 0 := by decide
    omega
  have hBc : countFrom 0 B = fs.length - 1 := by
    have h1 := hvo.2.2
    rw [hB, countFrom_append] at h1
    have h2 : countFrom (0 + cdelta B) [',', ' '] = 1 := by
      rw [hBd]
      decide
    omega
  refine ⟨hcols, ?_, ?_, ?_⟩
  · rw [topPositions, hc1]
    omega
  · rw [hcat, hstr]
    exact pyEndsWith_append_sep _
  · rw [hcat, hstr, pyDropRight_append_sep, topPositions]
    have : (String.mk B).data = B := rfl
    rw [this, hBc]
    omega

/-- C5 witness: a three-key tame Record with a scalar, a nested Record
and a sequence value. -/
theorem C5_positions_witness :
    parse_insert_columns
        [("a", .vint 1), ("b", .vdict [("c", .vint 2)]),
          ("d", .vlist [.vstr "x"])] "("
      = "(" ++ joinComma ([("a", Value.vint 1),
          ("b", Value.vdict [("c", Value.vint 2)]),
          ("d", Value.vlist [Value.vstr "x"])].map Prod.fst) ++ ") "
    ∧ topPositions (joinComma ([("a", Value.vint 1),
          ("b", Value.vdict [("c", Value.vint 2)]),
          ("d", Value.vlist [Value.vstr "x"])].map Prod.fst)) = 3
    ∧ pyEndsWith (parse_insert_values [("a", .vint 1),
          ("b", .vdict [("c", .vint 2)]),
          ("d", .vlist [.vstr "x"])] "") ", " = true
    ∧ topPositions (pyDropRight (parse_insert_values [("a", .vint 1),
          ("b", .vdict [("c", .vint 2)]),
          ("d", .vlist [.vstr "x"])] "") 2) = 3 :=
  C5_positions
    [("a", .vint 1), ("b", .vdict [("c", .vint 2)]),
      ("d", .vlist [.vstr "x"])]
    (List.cons_ne_nil _ _)
    (by simp only [tameRec, tameVal, tameList]
        decide)

end Dataops
